import Mathlib

/-!
Verification of the remote (HTTP) asset source of `bevy_asset`
(`crates/bevy_asset/src/http_source.rs`): origin policy, URI builder,
disk cache, fetch dispatcher and the reader façade, shallowly embedded in
Lean 4. Definitions follow the Rust source; parts of external crates that
the source calls (`url`, `ureq`, the filesystem, the hash) are modelled
from the design document and marked as such.
-/

namespace HttpSource

/-- An origin: the (scheme, host, port) triple identifying a network
endpoint. Modelled from the spec: the `url` crate's `Origin` type (the
crate is an external dependency, not part of the repository sources).
Two origins are equal iff all three components match exactly. -/
structure Origin where
  scheme : String
  host : String
  port : Nat
deriving DecidableEq, Repr

/-- A parsed absolute URL, with the components the asset source consumes.
Modelled from the spec: the `url` crate's `Url` type (external
dependency). -/
structure Url where
  scheme : String
  host : String
  port : Nat
  urlPath : String
deriving DecidableEq, Repr

/-- The origin of a URL: its (scheme, host, port) triple. -/
def Url.origin (u : Url) : Origin :=
  ⟨u.scheme, u.host, u.port⟩

/-- Strips the literal `pat` from the front of `cs`; `none` when `cs` does
not start with `pat`. -/
def stripLit : List Char → List Char → Option (List Char)
  | [], cs => some cs
  | _ :: _, [] => none
  | p :: ps, c :: cs => if c = p then stripLit ps cs else none

/-- Splits at the first slash: returns the authority part and the
remainder (the path, slash included). -/
def splitAuth : List Char → List Char × List Char
  | [] => ([], [])
  | c :: cs =>
    if c = '/' then ([], c :: cs)
    else
      let (a, b) := splitAuth cs
      (c :: a, b)

/-- Splits `host:port` at the first colon; the second component is `none`
when there is no colon. -/
def splitColon : List Char → List Char × Option (List Char)
  | [] => ([], none)
  | c :: cs =>
    if c = ':' then ([], some cs)
    else
      let (a, b) := splitColon cs
      (c :: a, b)

/-- Parses a non-empty decimal digit string into a `Nat`. -/
def digitsToNat : List Char → Option Nat
  | [] => none
  | cs => go cs 0
where
  go : List Char → Nat → Option Nat
    | [], acc => some acc
    | c :: cs, acc =>
      if c.isDigit then go cs (acc * 10 + (c.toNat - '0'.toNat))
      else none

/-- Parses the part after `scheme://`: authority (host, optional port)
followed by the path. -/
def parseAfterScheme (scheme : String) (dflt : Nat) (cs : List Char) : Option Url :=
  let (auth, path) := splitAuth cs
  match splitColon auth with
  | (host, none) =>
    if host = [] then none else some ⟨scheme, ⟨host⟩, dflt, ⟨path⟩⟩
  | (host, some portCs) =>
    match digitsToNat portCs with
    | some port => if host = [] then none else some ⟨scheme, ⟨host⟩, port, ⟨path⟩⟩
    | none => none

/-- Modelled from the spec: `url::Url::parse` (external dependency) as the
asset source uses it — an absolute `http`/`https` URL parses into scheme,
host, port (default 80 / 443) and path; a bare relative path (no scheme
part) fails to parse. -/
def Url.parse (s : String) : Option Url :=
  match stripLit "https://".data s.data with
  | some rest => parseAfterScheme "https" 443 rest
  | none =>
    match stripLit "http://".data s.data with
    | some rest => parseAfterScheme "http" 80 rest
    | none => none

/-- `AllowedOrigins` from `http_source.rs`: allow every origin, or only
the listed ones. -/
inductive AllowedOrigins where
  | All : AllowedOrigins
  | Only : List Origin → AllowedOrigins
deriving DecidableEq, Repr

/-- `AllowedOrigins::new`: parses each origin string and collects the
origins into the `Only` variant. The source panics (`expect`) on a
malformed string; the model returns `none` for that fatal configuration
error. -/
def AllowedOrigins.new (origins : List String) : Option AllowedOrigins :=
  (origins.mapM Url.parse).map (fun us => AllowedOrigins.Only (us.map Url.origin))

/-- `AllowedOrigins::is_allowed`: `All` admits every URL; `Only` admits a
URL iff some listed origin equals the URL's origin. -/
def AllowedOrigins.is_allowed : AllowedOrigins → Url → Bool
  | AllowedOrigins.All, _ => true
  | AllowedOrigins.Only os, url => os.any (fun allowed => decide (allowed = url.origin))

/-- `HttpSourceAssetReader`: an asset reader that treats paths as URLs. -/
structure HttpSourceAssetReader where
  secure : Bool
  allowed_origins : AllowedOrigins
deriving DecidableEq, Repr

/-- Whether a (Unix) path is absolute, i.e. starts with a slash. -/
def pathIsAbsolute (p : String) : Bool :=
  match p.data with
  | [] => false
  | c :: _ => c = '/'

/-- Whether a path ends with a separator. -/
def pathEndsWithSep (p : String) : Bool :=
  match p.data.getLast? with
  | some c => c = '/'
  | none => false

/-- Rust's `Path::join` / `PathBuf::push` on Unix: an absolute argument
replaces the base; otherwise the argument is appended, with a separator
inserted when the base is non-empty and does not already end in one. -/
def pathJoin (base p : String) : String :=
  if pathIsAbsolute p then p
  else if base = "" then p
  else if pathEndsWithSep base then base ++ p
  else base ++ "/" ++ p

/-- `HttpSourceAssetReader::make_uri`: joins the path onto the scheme
prefix `"https://"` or `"http://"` chosen by `secure`. -/
def HttpSourceAssetReader.make_uri (r : HttpSourceAssetReader) (p : String) : String :=
  pathJoin (if r.secure then "https://" else "http://") p

/-- Modelled from the spec: `crate::io::get_meta_path` (not under the
sampled sources) appends the fixed `.meta` suffix directly after the
path, regardless of any existing extension. -/
def get_meta_path (p : String) : String :=
  p ++ ".meta"

/-- `HttpSourceAssetReader::make_meta_uri`: derives the sidecar metadata
path, then builds the URI for it. -/
def HttpSourceAssetReader.make_meta_uri (r : HttpSourceAssetReader) (p : String) : String :=
  r.make_uri (get_meta_path p)

/-- One `register_asset_source` call made by the plugin: the scheme
identifier, the reader and the processed-asset reader it installs. -/
structure SourceReg where
  scheme : String
  reader : HttpSourceAssetReader
  processed_reader : HttpSourceAssetReader
deriving DecidableEq, Repr

/-- `HttpSourcePlugin::build` (both the `http` and the `https` features
enabled): the list of asset-source registrations it performs, in order.
Each reader is constructed exactly as in the source — note that the
source writes `secure: false` in all four readers, the `https` branch
included. -/
def HttpSourcePlugin.build (allowed_origins : AllowedOrigins) : List SourceReg :=
  [⟨"http", ⟨false, allowed_origins⟩, ⟨false, allowed_origins⟩⟩,
   ⟨"https", ⟨false, allowed_origins⟩, ⟨false, allowed_origins⟩⟩]

/-- How a `read` / `read_meta` call leaves the policy-check section:
either it hits the unimplemented `todo!("")` (a panic) on a denied
origin, or it proceeds to delegate the given URI to the fetch
dispatcher `get`. -/
inductive ReadOutcome where
  | panicTodo : ReadOutcome
  | fetch : String → ReadOutcome
deriving DecidableEq, Repr

/-- Trace of the policy-check section of a `read` / `read_meta` call:
which URL (if any) `is_allowed` was invoked on, and how the call
proceeded. -/
structure ReadTrace where
  policyCheckedOn : Option Url
  outcome : ReadOutcome
deriving DecidableEq, Repr

/-- `HttpSourceAssetReader::read` up to the delegation to `get`: the raw
path is parsed as a URL; on success the policy is applied to that URL
and a denial runs `todo!("")`; otherwise (and on a bare relative path,
with no policy check at all) the call proceeds to fetch
`make_uri(path)`. -/
def HttpSourceAssetReader.read (r : HttpSourceAssetReader) (path : String) : ReadTrace :=
  match Url.parse path with
  | some url =>
    if !(r.allowed_origins.is_allowed url) then ⟨some url, ReadOutcome.panicTodo⟩
    else ⟨some url, ReadOutcome.fetch (r.make_uri path)⟩
  | none => ⟨none, ReadOutcome.fetch (r.make_uri path)⟩

/-- `HttpSourceAssetReader::read_meta` up to the delegation to `get`:
identical policy-check logic, but the fetched URI is the meta URI. -/
def HttpSourceAssetReader.read_meta (r : HttpSourceAssetReader) (path : String) : ReadTrace :=
  match Url.parse path with
  | some url =>
    if !(r.allowed_origins.is_allowed url) then ⟨some url, ReadOutcome.panicTodo⟩
    else ⟨some url, ReadOutcome.fetch (r.make_meta_uri path)⟩
  | none => ⟨none, ReadOutcome.fetch (r.make_meta_uri path)⟩

/-- Modelled from the spec: the error taxonomy of `AssetReaderError`
(defined in `crate::io`, outside the sampled sources) as this module
constructs it — `NotFound(uri)`, `HttpError(code)` and `Io(detail)`. The
spec's `AccessDenied` outcome has no counterpart anywhere in the code. -/
inductive AssetReaderError where
  | NotFound : String → AssetReaderError
  | HttpError : Nat → AssetReaderError
  | Io : String → AssetReaderError
deriving DecidableEq, Repr

/-- A Rust `Path`/`PathBuf` as the fetch dispatcher consumes it:
`to_str` (valid UTF-8 or not) and the lossy `display` rendering. -/
structure OsPath where
  toStr : Option String
  display : String
deriving DecidableEq, Repr

/-- The `OsPath` of a valid UTF-8 path string. -/
def OsPath.ofString (s : String) : OsPath :=
  ⟨some s, s⟩

/-- The on-disk cache directory: a flat map from file name (the hashed
URL) to the file's bytes. -/
abbrev CacheStore : Type :=
  List (String × List Nat)

/-- The empty cache directory. -/
def CacheStore.empty : CacheStore :=
  []

/-- The bytes of the file named `name`, if it exists. -/
def CacheStore.file (c : CacheStore) (name : String) : Option (List Nat) :=
  match c with
  | [] => none
  | (k, v) :: rest => if k = name then some v else CacheStore.file rest name

/-- Creating (truncating) the file named `name` with contents `v`. -/
def CacheStore.create (c : CacheStore) (name : String) (v : List Nat) : CacheStore :=
  (name, v) :: c

/-- `http_asset_cache::try_load_from_cache`: hashes the URL with the
stable hash `h` (modelled from the spec: `DefaultHasher` is std library
code, any stable hash), reads the whole file when it exists, and returns
`none` — not an error — when it does not. -/
def try_load_from_cache (h : String → String) (c : CacheStore) (url : String) :
    Except String (Option (List Nat)) :=
  match CacheStore.file c (h url) with
  | some data => Except.ok (some data)
  | none => Except.ok none

/-- `http_asset_cache::save_to_cache`: hashes the URL, creates the cache
file and writes the bytes. `writeOk` models the filesystem's disposition:
when the create/write fails the function returns the error. -/
def save_to_cache (h : String → String) (writeOk : Bool) (c : CacheStore)
    (url : String) (data : List Nat) : Except String CacheStore :=
  if writeOk then Except.ok (CacheStore.create c (h url) data)
  else Except.error "cache write failure"

/-- Modelled from the spec: the transport-level outcome `ureq` hands
back — a 2xx response with its body, a non-2xx status surfaced as a
status-code error, or a connection/DNS/protocol-level failure with a
message. -/
inductive TransportResult where
  | success : List Nat → TransportResult
  | statusCode : Nat → TransportResult
  | failure : String → TransportResult
deriving DecidableEq, Repr

deriving instance DecidableEq for Except

/-- What one call of the fetch dispatcher `get` produced: the returned
bytes or error, whether the HTTP agent was invoked, and the cache
directory afterwards. -/
structure GetResult where
  result : Except AssetReaderError (List Nat)
  networkCalled : Bool
  cacheAfter : CacheStore
deriving DecidableEq, Repr

/-- The native fetch dispatcher `get` (with the `http_source_cache`
feature): a non-UTF-8 path is an `Io` error naming the path; a cache hit
returns the cached bytes with no network call; otherwise the agent is
invoked and the outcome classified — 2xx saves to the cache (the `?` on
`save_to_cache` propagates a write failure) and returns the body, 404 is
`NotFound(uri)`, any other error status is `HttpError(code)`, any other
transport failure is an `Io` error naming the path. -/
def get (h : String → String) (c : CacheStore) (net : TransportResult)
    (writeOk : Bool) (path : OsPath) : GetResult :=
  match path.toStr with
  | none =>
    ⟨Except.error (AssetReaderError.Io ("non-utf8 path: " ++ path.display)), false, c⟩
  | some str_path =>
    match try_load_from_cache h c str_path with
    | Except.error e => ⟨Except.error (AssetReaderError.Io e), false, c⟩
    | Except.ok (some data) => ⟨Except.ok data, false, c⟩
    | Except.ok none =>
      match net with
      | TransportResult.success buffer =>
        match save_to_cache h writeOk c str_path buffer with
        | Except.error e => ⟨Except.error (AssetReaderError.Io e), true, c⟩
        | Except.ok c2 => ⟨Except.ok buffer, true, c2⟩
      | TransportResult.statusCode code =>
        if code = 404 then ⟨Except.error (AssetReaderError.NotFound path.display), true, c⟩
        else ⟨Except.error (AssetReaderError.HttpError code), true, c⟩
      | TransportResult.failure err =>
        ⟨Except.error (AssetReaderError.Io
          ("unexpected error while loading asset " ++ path.display ++ ": " ++ err)), true, c⟩

/-- C1: the claim says a policy-denied request fails with an explicit
AccessDenied error and does not abort. The code instead runs `todo!("")`
on that branch, which panics: at the failing input — policy
`AllowedOrigins::new(["https://a.com"])`, request path
`"https://evil.com/x"` — both `read` and `read_meta` reach the
unimplemented panic, and no AccessDenied outcome exists anywhere. -/
theorem C1_read_denied_hits_todo_panic :
    AllowedOrigins.new ["https://a.com"] =
      some (AllowedOrigins.Only [⟨"https", "a.com", 443⟩]) ∧
    HttpSourceAssetReader.read ⟨true, AllowedOrigins.Only [⟨"https", "a.com", 443⟩]⟩
      "https://evil.com/x" =
      ⟨some ⟨"https", "evil.com", 443, "/x"⟩, ReadOutcome.panicTodo⟩ ∧
    HttpSourceAssetReader.read_meta ⟨true, AllowedOrigins.Only [⟨"https", "a.com", 443⟩]⟩
      "https://evil.com/x" =
      ⟨some ⟨"https", "evil.com", 443, "/x"⟩, ReadOutcome.panicTodo⟩ := by
  refine ⟨by decide, by decide, by decide⟩

/-- C2 counterexample: with the deny-all policy `Only []` and the bare
relative path `"example.com/x"`, `read` performs no policy evaluation at
all and proceeds straight to fetching `"http://example.com/x"` — even
though that fully resolved URL parses and its origin is denied by the
policy. The claim that the policy is evaluated on the fully resolved
absolute URL and is never bypassed is therefore false. -/
theorem C2_counterexample :
    HttpSourceAssetReader.read ⟨false, AllowedOrigins.Only []⟩ "example.com/x" =
      ⟨none, ReadOutcome.fetch "http://example.com/x"⟩ ∧
    Url.parse "http://example.com/x" = some ⟨"http", "example.com", 80, "/x"⟩ ∧
    AllowedOrigins.is_allowed (AllowedOrigins.Only [])
      ⟨"http", "example.com", 80, "/x"⟩ = false := by
  refine ⟨by decide, by decide, by decide⟩

/-- C2 (amended): the origin policy is evaluated exactly on the raw
request path's own URL parse — on the parsed URL when the raw path
parses, and not at all otherwise. In particular a bare relative path
(one that does not parse as a URL) bypasses the policy entirely and
proceeds directly to fetch the resolved URI, in both `read` and
`read_meta`. -/
theorem C2_policy_checked_only_on_parsed_raw_path
    (r : HttpSourceAssetReader) (p : String) :
    (r.read p).policyCheckedOn = Url.parse p ∧
    (r.read_meta p).policyCheckedOn = Url.parse p ∧
    (Url.parse p = none →
      r.read p = ⟨none, ReadOutcome.fetch (r.make_uri p)⟩ ∧
      r.read_meta p = ⟨none, ReadOutcome.fetch (r.make_meta_uri p)⟩) := by
  cases h : Url.parse p with
  | none =>
    simp [HttpSourceAssetReader.read, HttpSourceAssetReader.read_meta, h]
  | some url =>
    simp only [HttpSourceAssetReader.read, HttpSourceAssetReader.read_meta, h]
    refine ⟨?_, ?_, by simp⟩ <;> (split <;> rfl)

/-- C2 witness: the amended theorem applied at the deny-all reader and
the bare relative path `"example.com/x"`. -/
theorem C2_witness :
    (HttpSourceAssetReader.read ⟨false, AllowedOrigins.Only []⟩
        "example.com/x").policyCheckedOn = Url.parse "example.com/x" ∧
    HttpSourceAssetReader.read ⟨false, AllowedOrigins.Only []⟩ "example.com/x" =
      ⟨none, ReadOutcome.fetch
        (HttpSourceAssetReader.make_uri ⟨false, AllowedOrigins.Only []⟩ "example.com/x")⟩ := by
  have h := C2_policy_checked_only_on_parsed_raw_path
    ⟨false, AllowedOrigins.Only []⟩ "example.com/x"
  exact ⟨h.1, (h.2.2 (by decide)).1⟩

/-- C4: the claim says both readers registered under the `"https"`
scheme are the secure variant, building `"https://"`-prefixed URIs. The
code constructs both with `secure: false`, so they build
`"http://"`-prefixed URIs: for any policy, the second registration has
scheme `"https"` with both readers insecure, and its URI for
`"example.com/favicon.png"` is `"http://example.com/favicon.png"`,
which does not begin with `"https://"`. -/
theorem C4_https_registration_not_secure (pol : AllowedOrigins) :
    (HttpSourcePlugin.build pol)[1]? =
      some ⟨"https", ⟨false, pol⟩, ⟨false, pol⟩⟩ ∧
    HttpSourceAssetReader.make_uri ⟨false, pol⟩ "example.com/favicon.png" =
      "http://example.com/favicon.png" ∧
    stripLit "https://".data "http://example.com/favicon.png".data = none := by
  refine ⟨rfl, rfl, by decide⟩

/-- C5 counterexample: at the absolute path `"/a"` with `secure = false`,
`make_uri` yields `"/a"` — Rust's `Path::join` replaces the base when
the joined path is absolute — and not `"http://" ++ "/a"`, so the claim
quantified over every path is false. -/
theorem C5_counterexample :
    HttpSourceAssetReader.make_uri ⟨false, AllowedOrigins.All⟩ "/a" = "/a" ∧
    "/a" ≠ "http://" ++ "/a" := by
  refine ⟨by decide, by decide⟩

/-- C5 (amended): for every path `p` that is not absolute (does not
begin with a slash), `make_uri` yields exactly `"http://" ++ p` when
`secure = false` and `"https://" ++ p` when `secure = true`, with the
path preserved verbatim; an absolute path instead replaces the scheme
prefix entirely. -/
theorem C5_make_uri_concat_for_relative
    (ao : AllowedOrigins) (p : String) (hp : pathIsAbsolute p = false) :
    HttpSourceAssetReader.make_uri ⟨false, ao⟩ p = "http://" ++ p ∧
    HttpSourceAssetReader.make_uri ⟨true, ao⟩ p = "https://" ++ p := by
  constructor <;>
    simp [HttpSourceAssetReader.make_uri, pathJoin, hp, pathEndsWithSep]

/-- C5 witness: the amended theorem applied at the relative path
`"example.com/favicon.png"`. -/
theorem C5_witness :
    HttpSourceAssetReader.make_uri ⟨false, AllowedOrigins.All⟩ "example.com/favicon.png" =
      "http://" ++ "example.com/favicon.png" ∧
    HttpSourceAssetReader.make_uri ⟨true, AllowedOrigins.All⟩ "example.com/favicon.png" =
      "https://" ++ "example.com/favicon.png" :=
  C5_make_uri_concat_for_relative AllowedOrigins.All "example.com/favicon.png" (by decide)

/-- C3 counterexample: with an empty cache, a successful fetch of bytes
`[1, 2, 3]` and a failing cache write, `get` returns an `Io` error — the
`?` on `save_to_cache` propagates the write failure — and not the
fetched bytes, so the claim that the bytes are still returned is false. -/
theorem C3_counterexample :
    get (fun x => x) [] (TransportResult.success [1, 2, 3]) false
      (OsPath.ofString "http://a.com/x") =
      ⟨Except.error (AssetReaderError.Io "cache write failure"), true, []⟩ ∧
    (get (fun x => x) [] (TransportResult.success [1, 2, 3]) false
      (OsPath.ofString "http://a.com/x")).result ≠ Except.ok [1, 2, 3] := by
  refine ⟨by decide, by decide⟩

/-- C3 (amended): when the network fetch succeeds on a cache miss but
the cache write fails, `get` propagates the failure as an `Io` error to
the caller; the fetched bytes are not returned. -/
theorem C3_cache_write_failure_propagates
    (h : String → String) (s : String) (body : List Nat) :
    ∃ m, get h [] (TransportResult.success body) false (OsPath.ofString s) =
      ⟨Except.error (AssetReaderError.Io m), true, []⟩ := by
  exact ⟨"cache write failure", rfl⟩

/-- C6: classification of every fetch outcome by `get` (on a cache miss,
here the empty cache): a 404 yields `NotFound` carrying the URI; any
other error status yields `HttpError` with the literal code; a
transport-level failure yields `Io` with a message that contains the
original path; a non-UTF-8 path yields `Io` with a message that contains
the (lossily displayed) original path, before any network call. -/
theorem C6_fetch_classification :
    (∀ (h : String → String) (w : Bool) (s : String),
      get h [] (TransportResult.statusCode 404) w (OsPath.ofString s) =
        ⟨Except.error (AssetReaderError.NotFound s), true, []⟩) ∧
    (∀ (h : String → String) (w : Bool) (s : String) (code : Nat), code ≠ 404 →
      get h [] (TransportResult.statusCode code) w (OsPath.ofString s) =
        ⟨Except.error (AssetReaderError.HttpError code), true, []⟩) ∧
    (∀ (h : String → String) (w : Bool) (s msg : String), ∃ pre post,
      get h [] (TransportResult.failure msg) w (OsPath.ofString s) =
        ⟨Except.error (AssetReaderError.Io (pre ++ s ++ post)), true, []⟩) ∧
    (∀ (h : String → String) (c : CacheStore) (net : TransportResult) (w : Bool)
        (d : String), ∃ pre,
      get h c net w ⟨none, d⟩ =
        ⟨Except.error (AssetReaderError.Io (pre ++ d)), false, c⟩) := by
  refine ⟨fun h w s => rfl, fun h w s code hc => ?_, fun h w s msg => ?_, fun h c net w d => ?_⟩
  · simp [get, try_load_from_cache, CacheStore.file, OsPath.ofString, hc]
  · refine ⟨"unexpected error while loading asset ", ": " ++ msg, ?_⟩
    simp [get, try_load_from_cache, CacheStore.file, OsPath.ofString,
      String.append_assoc]
  · exact ⟨"non-utf8 path: ", rfl⟩

/-- C6 witness: the classification theorem applied at status code 500
(the spec's own example), which is not 404 and yields `HttpError 500`. -/
theorem C6_witness :
    get (fun x => x) [] (TransportResult.statusCode 500) true
      (OsPath.ofString "http://a.com/x") =
      ⟨Except.error (AssetReaderError.HttpError 500), true, []⟩ :=
  C6_fetch_classification.2.1 (fun x => x) true "http://a.com/x" 500 (by decide)

/-- C7: a cache hit never issues a network call — whenever the cache
directory holds the hashed URL's file, `get` returns exactly those bytes
with the agent not invoked — and two sequential fetches of the same URL
with caching on return byte-identical content, the second without any
network request (whatever the network would answer the second time). -/
theorem C7_cache_hit_no_network :
    (∀ (h : String → String) (c : CacheStore) (net : TransportResult) (w : Bool)
        (s : String) (data : List Nat),
      CacheStore.file c (h s) = some data →
      get h c net w (OsPath.ofString s) = ⟨Except.ok data, false, c⟩) ∧
    (∀ (h : String → String) (body : List Nat) (s : String)
        (net2 : TransportResult) (w2 : Bool),
      get h [] (TransportResult.success body) true (OsPath.ofString s) =
        ⟨Except.ok body, true, [(h s, body)]⟩ ∧
      get h [(h s, body)] net2 w2 (OsPath.ofString s) =
        ⟨Except.ok body, false, [(h s, body)]⟩) := by
  constructor
  · intro h c net w s data hfile
    simp [get, try_load_from_cache, OsPath.ofString, hfile]
  · intro h body s net2 w2
    constructor
    · simp [get, try_load_from_cache, save_to_cache, CacheStore.file,
        CacheStore.create, OsPath.ofString]
    · simp [get, try_load_from_cache, CacheStore.file, OsPath.ofString]

/-- C7 witness: the cache-hit half applied at a concrete store holding
bytes `[7]` under the request's hashed key. -/
theorem C7_witness :
    get (fun _ => "k") [("k", [7])] (TransportResult.statusCode 500) true
      (OsPath.ofString "http://a.com/x") = ⟨Except.ok [7], false, [("k", [7])]⟩ :=
  C7_cache_hit_no_network.1 (fun _ => "k") [("k", [7])]
    (TransportResult.statusCode 500) true "http://a.com/x" [7] (by decide)

/-- C8: cache round-trip and miss — `save_to_cache` on a key followed by
`try_load_from_cache` on the same key returns exactly the saved bytes,
and `try_load_from_cache` on a never-saved key (the empty cache
directory) returns `none`, not an error. -/
theorem C8_cache_roundtrip_and_miss :
    (∀ (h : String → String) (c : CacheStore) (url : String) (data : List Nat),
      ∃ c2, save_to_cache h true c url data = Except.ok c2 ∧
        try_load_from_cache h c2 url = Except.ok (some data)) ∧
    (∀ (h : String → String) (url : String),
      try_load_from_cache h CacheStore.empty url = Except.ok none) := by
  constructor
  · intro h c url data
    refine ⟨CacheStore.create c (h url) data, rfl, ?_⟩
    simp [try_load_from_cache, CacheStore.create, CacheStore.file]
  · intro h url
    rfl

/-- C9: `is_allowed` on `All` accepts every URL; on `Only os` it accepts
a URL iff the URL's (scheme, host, port) origin triple is an element of
`os` (exact match in all three components); and in particular the policy
built from `["https://a.com"]` accepts `https://a.com/x` but rejects
`https://a.com:8443/x` (port differs) and `http://a.com/x` (scheme
differs). -/
theorem C9_is_allowed_semantics :
    (∀ u : Url, AllowedOrigins.is_allowed AllowedOrigins.All u = true) ∧
    (∀ (os : List Origin) (u : Url),
      AllowedOrigins.is_allowed (AllowedOrigins.Only os) u = true ↔ u.origin ∈ os) ∧
    AllowedOrigins.new ["https://a.com"] =
      some (AllowedOrigins.Only [⟨"https", "a.com", 443⟩]) ∧
    (∃ u1, Url.parse "https://a.com/x" = some u1 ∧
      AllowedOrigins.is_allowed (AllowedOrigins.Only [⟨"https", "a.com", 443⟩]) u1 = true) ∧
    (∃ u2, Url.parse "https://a.com:8443/x" = some u2 ∧
      AllowedOrigins.is_allowed (AllowedOrigins.Only [⟨"https", "a.com", 443⟩]) u2 = false) ∧
    (∃ u3, Url.parse "http://a.com/x" = some u3 ∧
      AllowedOrigins.is_allowed (AllowedOrigins.Only [⟨"https", "a.com", 443⟩]) u3 = false) := by
  refine ⟨fun u => rfl, fun os u => ?_, by decide,
    ⟨⟨"https", "a.com", 443, "/x"⟩, by decide, by decide⟩,
    ⟨⟨"https", "a.com", 8443, "/x"⟩, by decide, by decide⟩,
    ⟨⟨"http", "a.com", 80, "/x"⟩, by decide, by decide⟩⟩
  constructor
  · intro hh
    rcases List.any_eq_true.mp hh with ⟨o, ho, he⟩
    rw [decide_eq_true_eq] at he
    rwa [he] at ho
  · intro hm
    exact List.any_eq_true.mpr ⟨u.origin, hm, by simp⟩

/-- C10: `AllowedOrigins::new` only ever produces the `Only` variant,
never `All`; applied to the empty list it yields `Only []`, whose
`is_allowed` rejects every URL (deny-all, not allow-all). -/
theorem C10_new_always_Only_and_empty_denies :
    (∀ (l : List String) (r : AllowedOrigins), AllowedOrigins.new l = some r →
      ∃ os, r = AllowedOrigins.Only os) ∧
    AllowedOrigins.new [] = some (AllowedOrigins.Only []) ∧
    (∀ u : Url, AllowedOrigins.is_allowed (AllowedOrigins.Only []) u = false) := by
  refine ⟨?_, by decide, fun u => rfl⟩
  intro l r hr
  unfold AllowedOrigins.new at hr
  rcases Option.map_eq_some'.mp hr with ⟨us, _, hfn⟩
  exact ⟨us.map Url.origin, hfn.symm⟩

/-- C10 witness: the theorem applied at the concrete list
`["https://a.com"]`, whose parse succeeds, and at the empty-policy URL
`https://a.com/x`. -/
theorem C10_witness :
    (∃ os, AllowedOrigins.Only [(⟨"https", "a.com", 443⟩ : Origin)] =
      AllowedOrigins.Only os) ∧
    AllowedOrigins.is_allowed (AllowedOrigins.Only [])
      ⟨"https", "a.com", 443, "/x"⟩ = false :=
  ⟨C10_new_always_Only_and_empty_denies.1 ["https://a.com"]
      (AllowedOrigins.Only [⟨"https", "a.com", 443⟩]) (by decide),
    C10_new_always_Only_and_empty_denies.2.2 ⟨"https", "a.com", 443, "/x"⟩⟩

end HttpSource
